import Mathlib

/-!
Verification of the RSS document loader
(`src/langchain/document_loaders/rss.py`).

The embedding models:
* Python dict values occurring in a raw item mapping (`FieldValue`:
  a string, the null text value `none`, or a list of such);
* raw item mappings as ordered association lists (`RawItemFields`),
  mirroring Python's insertion-ordered dicts (`alookup`, `aset`, `adel`
  mirror `d[k]`, `d[k] = v`, `del d[k]`);
* parsed XML element trees (`XmlNode`, with lxml's convention that a
  namespaced tag carries the resolved `\x7buri\x7dlocal` form), and the
  `findall` subset of ElementPath used by the loader (`./a/b` paths with
  namespace-prefix resolution);
* the loader's field schema, `parse_rss`, the default text/metadata
  splitter functions, and `load`.

External collaborators are parameters: `getText` stands for the
HTML-to-plain-text extraction step (`BeautifulSoup(text, "html.parser")
.get_text()` in the source, an external library), `fetch` for
`self.session.get` and `fromstring` for `etree.fromstring`.
-/

namespace Rss

/-- A value stored in a raw item mapping: either a single optional string
(`single none` is Python's `None`, the text of an empty XML node) or an
ordered list accumulated for a multi-valued field. -/
inductive FieldValue where
  | single : Option String → FieldValue
  | multi : List (Option String) → FieldValue
deriving DecidableEq

/-- A raw item mapping: insertion-ordered association list, as produced by
`parse_rss` for one `<item>`. -/
abbrev RawItemFields := List (String × FieldValue)

/-- A parsed XML element: tag (in resolved form), text content (`none` when
the element has no text, as in lxml), and child elements in document
order. -/
inductive XmlNode where
  | mk : String → Option String → List XmlNode → XmlNode

def XmlNode.tag : XmlNode → String
  | XmlNode.mk t _ _ => t

def XmlNode.text : XmlNode → Option String
  | XmlNode.mk _ t _ => t

def XmlNode.children : XmlNode → List XmlNode
  | XmlNode.mk _ _ c => c

/-- Dict lookup `m[k]` (first binding wins, as keys are unique in a dict). -/
def alookup {α : Type} : List (String × α) → String → Option α
  | [], _ => none
  | p :: m, k => if p.1 = k then some p.2 else alookup m k

/-- Dict update `m[k] = v`: replace the binding in place if the key is
present, else append a new binding (Python dicts keep insertion order). -/
def aset {α : Type} : List (String × α) → String → α → List (String × α)
  | [], k, v => [(k, v)]
  | p :: m, k, v => if p.1 = k then (k, v) :: m else p :: aset m k v

/-- Dict deletion `del m[k]`. -/
def adel {α : Type} : List (String × α) → String → List (String × α)
  | [], _ => []
  | p :: m, k => if p.1 = k then adel m k else p :: adel m k

/-- Split a character list at every occurrence of `c`. -/
def splitOnChar (c : Char) : List Char → List (List Char)
  | [] => [[]]
  | x :: xs =>
    if x = c then [] :: splitOnChar c xs
    else
      match splitOnChar c xs with
      | [] => [[x]]
      | w :: ws => (x :: w) :: ws

/-- Split a string at every occurrence of `c`. -/
def splitStr (c : Char) (s : String) : List String :=
  (splitOnChar c s.data).map String.mk

/-- Resolve one path segment against the namespace table, as ElementPath
does: `pre:local` becomes `\x7buri\x7dlocal` when `pre` is in the table.
(An unresolvable prefix raises in lxml; every prefix used by the loader's
schema resolves, so that branch is not reached by the claims below.) -/
def resolveSeg (ns : List (String × String)) (seg : String) : String :=
  match splitStr ':' seg with
  | [pre, loc] =>
    match alookup ns pre with
    | some uri => "\x7b" ++ uri ++ "\x7d" ++ loc
    | none => seg
  | _ => seg

/-- `node.findall(path, namespaces=ns)` for the `./a/b`-shaped paths the
loader uses: walk the path segment by segment from the context node,
collecting matching children in document order. -/
def findall (node : XmlNode) (path : String) (ns : List (String × String)) : List XmlNode :=
  ((splitStr '/' path).map (resolveSeg ns)).foldl
    (fun acc seg =>
      if seg = "." then acc
      else (acc.map (fun n => n.children.filter fun c => decide (c.tag = seg))).flatten)
    [node]

/-- One entry of the loader's field table: the dicts
`\x7b"tag": ..., "field": ..., "multi": ..., "type": ...\x7d` of the
source, with the optional `multi`/`type` keys as `Option`. -/
structure FieldSpec where
  tag : String
  field : String
  multi : Option Bool := none
  type : Option String := none
deriving DecidableEq

/-- `self.namespaces` of the source. -/
def namespaces : List (String × String) :=
  [("content", "http://purl.org/rss/1.0/modules/content/"),
   ("dc", "http://purl.org/dc/elements/1.1/")]

def linkSpec : FieldSpec := { tag := "./link", field := "source" }

def titleSpec : FieldSpec := { tag := "./title", field := "title" }

def categorySpec : FieldSpec := { tag := "./category", field := "category", multi := some true }

def pubDateSpec : FieldSpec := { tag := "./pubDate", field := "publication_date" }

def creatorSpec : FieldSpec := { tag := "./dc:creator", field := "author" }

def descriptionSpec : FieldSpec := { tag := "./description", field := "description", type := some "html" }

def contentSpec : FieldSpec := { tag := "./content:encoded", field := "content", type := some "html" }

/-- `self.fields` of the source, in source order. -/
def fields : List FieldSpec :=
  [linkSpec, titleSpec, categorySpec, pubDateSpec, creatorSpec, descriptionSpec, contentSpec]

/-- `self.items_selector` of the source. -/
def items_selector : String := "./channel/item"

/-- Lines 88-92 of the source: `text = element.text`, then for a field with
`"type": "html"` the text is passed through the external HTML-to-text
collaborator (`BeautifulSoup(text, "html.parser").get_text()`). -/
def elemText (getText : Option String → String) (f : FieldSpec) (e : XmlNode) : Option String :=
  if f.type = some "html" then some (getText e.text) else e.text

/-- `meta[field["field"]].append(text)` on a list value. A non-list value
has no `append` in the source; that case is unreachable because a
multi-valued key is always initialized to a list first and the schema's
output keys are distinct. -/
def appendVal : FieldValue → Option String → FieldValue
  | FieldValue.multi l, t => FieldValue.multi (l ++ [t])
  | v, _ => v

/-- Lines 87-101 of the source, the body run for one matched element:
extract (and optionally HTML-strip) the text, initialize the key to `[]`
or `""` when absent, then append (multi-valued) or overwrite
(single-valued). Line 98 (`meta[f] = meta[f] if "field" in field else []`)
keeps the existing value, since every field dict has a `"field"` key, so
it is the identity and is not reproduced. -/
def processElement (getText : Option String → String) (f : FieldSpec)
    (meta : RawItemFields) (element : XmlNode) : RawItemFields :=
  let text := elemText getText f element
  let meta1 :=
    if (alookup meta f.field).isSome then meta
    else
      aset meta f.field
        (if f.multi = some true then FieldValue.multi [] else FieldValue.single (some ""))
  if f.multi = some true then
    aset meta1 f.field (appendVal ((alookup meta1 f.field).getD (FieldValue.multi [])) text)
  else
    aset meta1 f.field (FieldValue.single text)

/-- Lines 86-101 of the source for one field spec:
`element_list = item.findall(field["tag"], namespaces=self.namespaces)`
followed by the per-element loop. -/
def processField (getText : Option String → String) (item : XmlNode)
    (meta : RawItemFields) (f : FieldSpec) : RawItemFields :=
  (findall item f.tag namespaces).foldl (processElement getText f) meta

/-- Lines 84-103 of the source: the raw item mapping built for one item
node, starting from the empty dict and processing the field table in
order. -/
def parse_item (getText : Option String → String) (item : XmlNode) : RawItemFields :=
  fields.foldl (processField getText item) []

/-- `RssLoader.parse_rss`: one raw item mapping per node matched by the
items selector, in document order (the source is a generator; its yielded
sequence is this list). -/
def parse_rss (getText : Option String → String) (root : XmlNode) : List RawItemFields :=
  (findall root items_selector namespaces).map (parse_item getText)

/-- `_default_parsing_function_text` of the source: `text = ""`, then
`content["content"]` if that key is present, elif `content["description"]`
if present. -/
def _default_parsing_function_text (content : RawItemFields) : FieldValue :=
  if (alookup content "content").isSome then
    (alookup content "content").getD (FieldValue.single (some ""))
  else if (alookup content "description").isSome then
    (alookup content "description").getD (FieldValue.single (some ""))
  else FieldValue.single (some "")

/-- `_default_parsing_function_meta` of the source: shallow copy, then
`del` of the `"content"` and `"description"` keys when present. -/
def _default_parsing_function_meta (meta : RawItemFields) : RawItemFields :=
  let r_meta := meta
  let r_meta1 := if (alookup r_meta "content").isSome then adel r_meta "content" else r_meta
  if (alookup r_meta1 "description").isSome then adel r_meta1 "description" else r_meta1

/-- `Document(page_content=..., metadata=...)` as assembled by `load`. -/
structure Document where
  page_content : FieldValue
  metadata : RawItemFields
deriving DecidableEq

/-- Lines 116-119 of the source for one raw item, with the default
parsing functions (the constructor installs them when no override is
supplied). -/
def mkDocument (item : RawItemFields) : Document :=
  { page_content := _default_parsing_function_text item,
    metadata := _default_parsing_function_meta item }

/-- The loop of `RssLoader.load` over the remaining feed list, carrying
the `docs` accumulator. `fetch` is `self.session.get` (raising is
`Except.error`), `fromstring` is `etree.fromstring`; an error propagates
immediately, discarding the local accumulator. -/
def loadAux {ε : Type} (fetch : String → Except ε String)
    (fromstring : String → Except ε XmlNode) (getText : Option String → String) :
    List String → List Document → Except ε (List Document)
  | [], docs => Except.ok docs
  | feed :: rest, docs =>
    match fetch feed with
    | Except.error e => Except.error e
    | Except.ok xml =>
      match fromstring xml with
      | Except.error e => Except.error e
      | Except.ok root =>
        loadAux fetch fromstring getText rest (docs ++ (parse_rss getText root).map mkDocument)

/-- `RssLoader.load`: process the configured feed locations in order,
starting from the empty document list. -/
def load {ε : Type} (fetch : String → Except ε String)
    (fromstring : String → Except ε XmlNode) (getText : Option String → String)
    (web_paths : List String) : Except ε (List Document) :=
  loadAux fetch fromstring getText web_paths []

/-- A concrete instantiation of the HTML-to-text collaborator, used by the
closed witnesses below: drop `<...>` tag spans, keep the rest (on `none`,
the collaborator side is external; this sample returns `""`). -/
def stripTagsAux : List Char → Bool → List Char
  | [], _ => []
  | c :: cs, inTag =>
    if c = '<' then stripTagsAux cs true
    else if c = '>' then stripTagsAux cs false
    else if inTag then stripTagsAux cs true
    else c :: stripTagsAux cs false

/-- Sample `getText` collaborator for witnesses. -/
def sampleGetText (t : Option String) : String :=
  match t with
  | none => ""
  | some s => String.mk (stripTagsAux s.data false)

/-- A concrete `<item>` used by witnesses: a repeated `<title>`, a repeated
`<category>` with duplicate values, and an HTML `<description>`; no
`<link>` child. -/
def sampleItem : XmlNode :=
  XmlNode.mk "item" none
    [XmlNode.mk "title" (some "T1") [],
     XmlNode.mk "category" (some "a") [],
     XmlNode.mk "title" (some "T2") [],
     XmlNode.mk "category" (some "a") [],
     XmlNode.mk "description" (some "<p>Hello <b>World</b></p>") []]

/-- A concrete `<item>` whose `<category>` and `<title>` children have no
text content (lxml reports their `.text` as `None`). -/
def nullItem : XmlNode :=
  XmlNode.mk "item" none
    [XmlNode.mk "category" none [],
     XmlNode.mk "title" none []]

/-- A concrete feed document with a channel but zero `<item>` nodes. -/
def emptyRoot : XmlNode :=
  XmlNode.mk "rss" none [XmlNode.mk "channel" none []]

/-- A concrete fetcher for witnesses: fails on one location, succeeds on
all others. -/
def wfetch : String → Except String String :=
  fun u => if u = "http://b.example/feed" then Except.error "fetch failed" else Except.ok "<rss/>"

/-- A concrete XML parser for witnesses. -/
def wfromstring : String → Except String XmlNode :=
  fun _ => Except.ok emptyRoot

/-- A Python runtime error. `rss.py` imports `re`, `itertools`, `typing`,
`WebBaseLoader`, `Document` and `lxml.etree` only, so the name
`BeautifulSoup` used on line 91 is unbound and evaluating it raises
`NameError`; the payload names the unbound identifier. -/
inductive PyError where
  | nameError : String → PyError

/-- The runtime semantics of lines 87-101 for one matched element, with
name resolution as it actually stands in the module: entering the
rich-text branch (line 90 true) evaluates the unbound name
`BeautifulSoup` on line 91 and raises before anything is stored; the
non-rich-text path is as in `processElement`. -/
def processElementRun (f : FieldSpec) (meta : RawItemFields) (element : XmlNode) :
    Except PyError RawItemFields :=
  let text := element.text
  if f.type = some "html" then Except.error (PyError.nameError "BeautifulSoup")
  else
    let meta1 :=
      if (alookup meta f.field).isSome then meta
      else
        aset meta f.field
          (if f.multi = some true then FieldValue.multi [] else FieldValue.single (some ""))
    Except.ok
      (if f.multi = some true then
        aset meta1 f.field (appendVal ((alookup meta1 f.field).getD (FieldValue.multi [])) text)
      else
        aset meta1 f.field (FieldValue.single text))

/-- Runtime semantics of lines 86-101 for one field spec: the first
raised error propagates. -/
def processFieldRun (item : XmlNode) (meta : RawItemFields) (f : FieldSpec) :
    Except PyError RawItemFields :=
  (findall item f.tag namespaces).foldlM (processElementRun f) meta

/-- Runtime semantics of lines 84-103 for one item node: the raw item
mapping, or the first `NameError` raised while building it (which
propagates out of `parse_rss` and aborts `load`). -/
def parse_item_run (item : XmlNode) : Except PyError RawItemFields :=
  fields.foldlM (processFieldRun item) []

/-! ### Dictionary lemmas -/

theorem alookup_aset_self {α : Type} (m : List (String × α)) (k : String) (v : α) :
    alookup (aset m k v) k = some v := by
  induction m with
  | nil => simp [aset, alookup]
  | cons p m ih =>
    by_cases h : p.1 = k
    · simp [aset, alookup, h]
    · simp [aset, alookup, h, ih]

theorem alookup_aset_ne {α : Type} (m : List (String × α)) (k : String) (v : α)
    (k' : String) (h : k' ≠ k) : alookup (aset m k v) k' = alookup m k' := by
  induction m with
  | nil => simp [aset, alookup, Ne.symm h]
  | cons p m ih =>
    by_cases hp : p.1 = k
    · have hp' : ¬ p.1 = k' := by rw [hp]; exact Ne.symm h
      simp [aset, alookup, hp, hp', Ne.symm h]
    · by_cases hq : p.1 = k'
      · simp [aset, alookup, hp, hq, h, Ne.symm h]
      · simp [aset, alookup, hp, hq, ih]

theorem alookup_adel_self {α : Type} (m : List (String × α)) (k : String) :
    alookup (adel m k) k = none := by
  induction m with
  | nil => simp [adel, alookup]
  | cons p m ih =>
    by_cases h : p.1 = k
    · simp [adel, h, ih]
    · simp [adel, alookup, h, ih]

theorem alookup_adel_ne {α : Type} (m : List (String × α)) (k : String)
    (k' : String) (h : k' ≠ k) : alookup (adel m k) k' = alookup m k' := by
  induction m with
  | nil => simp [adel]
  | cons p m ih =>
    by_cases hp : p.1 = k
    · have hp' : ¬ p.1 = k' := by rw [hp]; exact Ne.symm h
      simp [adel, alookup, hp, hp', Ne.symm h, ih]
    · by_cases hq : p.1 = k'
      · simp [adel, alookup, hp, hq, h, Ne.symm h]
      · simp [adel, alookup, hp, hq, ih]

/-! ### Extraction-loop lemmas -/

theorem alookup_processElement_ne (g : Option String → String) (f : FieldSpec)
    (m : RawItemFields) (e : XmlNode) (k : String) (h : k ≠ f.field) :
    alookup (processElement g f m e) k = alookup m k := by
  by_cases h1 : (alookup m f.field).isSome <;> by_cases h2 : f.multi = some true <;>
    simp [processElement, h1, h2, alookup_aset_ne, h]

theorem alookup_foldl_processElement_ne (g : Option String → String) (f : FieldSpec)
    (k : String) (h : k ≠ f.field) (es : List XmlNode) :
    ∀ m : RawItemFields, alookup (es.foldl (processElement g f) m) k = alookup m k := by
  induction es with
  | nil => intro m; rfl
  | cons e es ih =>
    intro m
    rw [List.foldl_cons, ih, alookup_processElement_ne g f m e k h]

theorem alookup_processField_ne (g : Option String → String) (item : XmlNode)
    (f : FieldSpec) (m : RawItemFields) (k : String) (h : k ≠ f.field) :
    alookup (processField g item m f) k = alookup m k :=
  alookup_foldl_processElement_ne g f k h _ m

theorem alookup_foldl_processField_ne (g : Option String → String) (item : XmlNode)
    (k : String) (l : List FieldSpec) (hl : ∀ f ∈ l, k ≠ f.field) :
    ∀ m : RawItemFields, alookup (l.foldl (processField g item) m) k = alookup m k := by
  induction l with
  | nil => intro m; rfl
  | cons f l ih =>
    intro m
    rw [List.foldl_cons, ih (fun f' hf' => hl f' (List.mem_cons_of_mem f hf')),
      alookup_processField_ne g item f m k (hl f (List.mem_cons_self f l))]

theorem alookup_foldl_processElement_single (g : Option String → String) (f : FieldSpec)
    (hm : ¬ f.multi = some true) (es : List XmlNode) :
    ∀ (e : XmlNode) (m : RawItemFields),
      alookup (es.foldl (processElement g f) (processElement g f m e)) f.field
        = some (FieldValue.single (elemText g f (es.getLastD e))) := by
  induction es with
  | nil =>
    intro e m
    simp [processElement, hm, alookup_aset_self]
  | cons e' es ih =>
    intro e m
    rw [List.foldl_cons, ih e' (processElement g f m e), List.getLastD_cons]

theorem alookup_foldl_processElement_multi (g : Option String → String) (f : FieldSpec)
    (hm : f.multi = some true) (es : List XmlNode) :
    ∀ (m : RawItemFields) (l : List (Option String)),
      alookup m f.field = some (FieldValue.multi l) →
      alookup (es.foldl (processElement g f) m) f.field
        = some (FieldValue.multi (l ++ es.map (elemText g f))) := by
  induction es with
  | nil => intro m l h; simpa using h
  | cons e es ih =>
    intro m l h
    have h1 : alookup (processElement g f m e) f.field
        = some (FieldValue.multi (l ++ [elemText g f e])) := by
      simp [processElement, hm, h, appendVal, alookup_aset_self]
    rw [List.foldl_cons, ih _ _ h1]
    simp

theorem processField_of_no_match (g : Option String → String) (item : XmlNode)
    (f : FieldSpec) (m : RawItemFields) (hfind : findall item f.tag namespaces = []) :
    processField g item m f = m := by
  rw [processField, hfind]
  rfl

theorem alookup_processField_single (g : Option String → String) (item : XmlNode)
    (f : FieldSpec) (m : RawItemFields) (hm : ¬ f.multi = some true)
    (e : XmlNode) (es : List XmlNode) (hfind : findall item f.tag namespaces = e :: es) :
    alookup (processField g item m f) f.field
      = some (FieldValue.single (elemText g f (es.getLastD e))) := by
  rw [processField, hfind, List.foldl_cons]
  exact alookup_foldl_processElement_single g f hm es e m

theorem alookup_processField_multi (g : Option String → String) (item : XmlNode)
    (f : FieldSpec) (m : RawItemFields) (hm : f.multi = some true)
    (hnone : alookup m f.field = none)
    (e : XmlNode) (es : List XmlNode) (hfind : findall item f.tag namespaces = e :: es) :
    alookup (processField g item m f) f.field
      = some (FieldValue.multi ((e :: es).map (elemText g f))) := by
  rw [processField, hfind, List.foldl_cons]
  have h1 : alookup (processElement g f m e) f.field
      = some (FieldValue.multi [elemText g f e]) := by
    simp [processElement, hm, hnone, appendVal, alookup_aset_self]
  rw [alookup_foldl_processElement_multi g f hm es _ _ h1]
  simp

/-! ### Whole-item lemmas

The schema's output keys are pairwise distinct, so the value under a
spec's key after the whole field loop is exactly the value produced by
that spec's own pass. -/

theorem mem_fields_split (s : FieldSpec) (hs : s ∈ fields) :
    ∃ l₁ l₂, fields = l₁ ++ s :: l₂ ∧ (∀ f ∈ l₁, s.field ≠ f.field) ∧
      (∀ f ∈ l₂, s.field ≠ f.field) := by
  simp only [fields, List.mem_cons, List.not_mem_nil, or_false] at hs
  rcases hs with rfl | rfl | rfl | rfl | rfl | rfl | rfl
  · exact ⟨[], [titleSpec, categorySpec, pubDateSpec, creatorSpec, descriptionSpec, contentSpec],
      rfl, by decide, by decide⟩
  · exact ⟨[linkSpec], [categorySpec, pubDateSpec, creatorSpec, descriptionSpec, contentSpec],
      rfl, by decide, by decide⟩
  · exact ⟨[linkSpec, titleSpec], [pubDateSpec, creatorSpec, descriptionSpec, contentSpec],
      rfl, by decide, by decide⟩
  · exact ⟨[linkSpec, titleSpec, categorySpec], [creatorSpec, descriptionSpec, contentSpec],
      rfl, by decide, by decide⟩
  · exact ⟨[linkSpec, titleSpec, categorySpec, pubDateSpec], [descriptionSpec, contentSpec],
      rfl, by decide, by decide⟩
  · exact ⟨[linkSpec, titleSpec, categorySpec, pubDateSpec, creatorSpec], [contentSpec],
      rfl, by decide, by decide⟩
  · exact ⟨[linkSpec, titleSpec, categorySpec, pubDateSpec, creatorSpec, descriptionSpec], [],
      rfl, by decide, by decide⟩

theorem parse_item_alookup_of_no_match (g : Option String → String) (item : XmlNode)
    (s : FieldSpec) (hs : s ∈ fields) (hfind : findall item s.tag namespaces = []) :
    alookup (parse_item g item) s.field = none := by
  obtain ⟨l₁, l₂, hf, h₁, h₂⟩ := mem_fields_split s hs
  rw [parse_item, hf, List.foldl_append, List.foldl_cons,
    alookup_foldl_processField_ne g item s.field l₂ h₂,
    processField_of_no_match g item s _ hfind,
    alookup_foldl_processField_ne g item s.field l₁ h₁]
  rfl

theorem parse_item_alookup_single (g : Option String → String) (item : XmlNode)
    (s : FieldSpec) (hs : s ∈ fields) (hm : ¬ s.multi = some true)
    (e : XmlNode) (es : List XmlNode) (hfind : findall item s.tag namespaces = e :: es) :
    alookup (parse_item g item) s.field
      = some (FieldValue.single (elemText g s (es.getLastD e))) := by
  obtain ⟨l₁, l₂, hf, h₁, h₂⟩ := mem_fields_split s hs
  rw [parse_item, hf, List.foldl_append, List.foldl_cons,
    alookup_foldl_processField_ne g item s.field l₂ h₂,
    alookup_processField_single g item s _ hm e es hfind]

theorem parse_item_alookup_multi (g : Option String → String) (item : XmlNode)
    (s : FieldSpec) (hs : s ∈ fields) (hm : s.multi = some true)
    (e : XmlNode) (es : List XmlNode) (hfind : findall item s.tag namespaces = e :: es) :
    alookup (parse_item g item) s.field
      = some (FieldValue.multi ((e :: es).map (elemText g s))) := by
  obtain ⟨l₁, l₂, hf, h₁, h₂⟩ := mem_fields_split s hs
  rw [parse_item, hf, List.foldl_append, List.foldl_cons,
    alookup_foldl_processField_ne g item s.field l₂ h₂]
  have hnone : alookup (l₁.foldl (processField g item) []) s.field = none := by
    rw [alookup_foldl_processField_ne g item s.field l₁ h₁]
    rfl
  exact alookup_processField_multi g item s _ hm hnone e es hfind

/-! ### Splitter lemmas -/

theorem default_text_of_content (m : RawItemFields) (v : FieldValue)
    (h : alookup m "content" = some v) : _default_parsing_function_text m = v := by
  simp [_default_parsing_function_text, h]

theorem default_text_of_description (m : RawItemFields) (v : FieldValue)
    (hc : alookup m "content" = none) (hd : alookup m "description" = some v) :
    _default_parsing_function_text m = v := by
  simp [_default_parsing_function_text, hc, hd]

theorem default_text_of_neither (m : RawItemFields)
    (hc : alookup m "content" = none) (hd : alookup m "description" = none) :
    _default_parsing_function_text m = FieldValue.single (some "") := by
  simp [_default_parsing_function_text, hc, hd]

theorem default_meta_content (m : RawItemFields) :
    alookup (_default_parsing_function_meta m) "content" = none := by
  have hcd : ("content" : String) ≠ "description" := by decide
  simp only [_default_parsing_function_meta]
  by_cases hc : (alookup m "content").isSome
  · rw [if_pos hc]
    by_cases hd : (alookup (adel m "content") "description").isSome
    · rw [if_pos hd, alookup_adel_ne _ _ _ hcd, alookup_adel_self]
    · rw [if_neg hd, alookup_adel_self]
  · rw [if_neg hc]
    by_cases hd : (alookup m "description").isSome
    · rw [if_pos hd, alookup_adel_ne _ _ _ hcd]
      exact Option.not_isSome_iff_eq_none.mp hc
    · rw [if_neg hd]
      exact Option.not_isSome_iff_eq_none.mp hc

theorem default_meta_description (m : RawItemFields) :
    alookup (_default_parsing_function_meta m) "description" = none := by
  simp only [_default_parsing_function_meta]
  by_cases hc : (alookup m "content").isSome
  · rw [if_pos hc]
    by_cases hd : (alookup (adel m "content") "description").isSome
    · rw [if_pos hd, alookup_adel_self]
    · rw [if_neg hd]
      exact Option.not_isSome_iff_eq_none.mp hd
  · rw [if_neg hc]
    by_cases hd : (alookup m "description").isSome
    · rw [if_pos hd, alookup_adel_self]
    · rw [if_neg hd]
      exact Option.not_isSome_iff_eq_none.mp hd

theorem default_meta_other (m : RawItemFields) (k : String)
    (hkc : k ≠ "content") (hkd : k ≠ "description") :
    alookup (_default_parsing_function_meta m) k = alookup m k := by
  simp only [_default_parsing_function_meta]
  by_cases hc : (alookup m "content").isSome
  · rw [if_pos hc]
    by_cases hd : (alookup (adel m "content") "description").isSome
    · rw [if_pos hd, alookup_adel_ne _ _ _ hkd, alookup_adel_ne _ _ _ hkc]
    · rw [if_neg hd, alookup_adel_ne _ _ _ hkc]
  · rw [if_neg hc]
    by_cases hd : (alookup m "description").isSome
    · rw [if_pos hd, alookup_adel_ne _ _ _ hkd]
    · rw [if_neg hd]

/-! ### Loader lemmas -/

theorem loadAux_fetch_error {ε : Type} (fetch : String → Except ε String)
    (fromstring : String → Except ε XmlNode) (g : Option String → String)
    (p : String) (e : ε) (h : fetch p = Except.error e) (rest : List String)
    (docs : List Document) :
    loadAux fetch fromstring g (p :: rest) docs = Except.error e := by
  simp [loadAux, h]

theorem loadAux_error_of_prefix_ok {ε : Type} (fetch : String → Except ε String)
    (fromstring : String → Except ε XmlNode) (g : Option String → String)
    (p : String) (e : ε) (hp : fetch p = Except.error e) (l₂ : List String) :
    ∀ l₁ : List String,
      (∀ q ∈ l₁, ∃ b, fetch q = Except.ok b ∧ ∃ r, fromstring b = Except.ok r) →
      ∀ docs : List Document,
        loadAux fetch fromstring g (l₁ ++ p :: l₂) docs = Except.error e := by
  intro l₁
  induction l₁ with
  | nil =>
    intro _ docs
    exact loadAux_fetch_error fetch fromstring g p e hp l₂ docs
  | cons q l₁ ih =>
    intro hgood docs
    obtain ⟨b, hb, r, hr⟩ := hgood q (List.mem_cons_self q l₁)
    rw [List.cons_append]
    simp only [loadAux, hb, hr]
    exact ih (fun q' hq' => hgood q' (List.mem_cons_of_mem q hq')) _

/-! ### Claims -/

/-- Claim C1: for every raw item mapping, the default `selectText`
(`_default_parsing_function_text`) returns the value under `"content"`
when that key is present, else the value under `"description"` when that
key is present, else the empty string. It is a total function, so it
never raises on any input mapping. -/
theorem claim_C1_selectText_default (raw : RawItemFields) :
    (∀ v, alookup raw "content" = some v → _default_parsing_function_text raw = v) ∧
    (alookup raw "content" = none →
      ∀ v, alookup raw "description" = some v → _default_parsing_function_text raw = v) ∧
    (alookup raw "content" = none → alookup raw "description" = none →
      _default_parsing_function_text raw = FieldValue.single (some "")) :=
  ⟨fun v h => default_text_of_content raw v h,
   fun hc v hd => default_text_of_description raw v hc hd,
   fun hc hd => default_text_of_neither raw hc hd⟩

/-- Witness for C1, the spec's round-trip example: content plus
description yields the content value `"A"`, description only yields
`"B"`, the empty mapping yields `""`. -/
theorem claim_C1_witness :
    _default_parsing_function_text
        [("content", FieldValue.single (some "A")), ("description", FieldValue.single (some "B"))]
      = FieldValue.single (some "A") ∧
    _default_parsing_function_text [("description", FieldValue.single (some "B"))]
      = FieldValue.single (some "B") ∧
    _default_parsing_function_text [] = FieldValue.single (some "") :=
  ⟨(claim_C1_selectText_default
      [("content", FieldValue.single (some "A")),
       ("description", FieldValue.single (some "B"))]).1 _ rfl,
   (claim_C1_selectText_default [("description", FieldValue.single (some "B"))]).2.1 rfl _ rfl,
   (claim_C1_selectText_default []).2.2 rfl rfl⟩

/-- Claim C2: for every raw item mapping, the default `selectMetadata`
(`_default_parsing_function_meta`) contains neither `"content"` nor
`"description"`, and maps every other key to exactly the value it has in
the input (single values and sequences unchanged). -/
theorem claim_C2_selectMetadata_default (raw : RawItemFields) :
    alookup (_default_parsing_function_meta raw) "content" = none ∧
    alookup (_default_parsing_function_meta raw) "description" = none ∧
    ∀ k, k ≠ "content" → k ≠ "description" →
      alookup (_default_parsing_function_meta raw) k = alookup raw k :=
  ⟨default_meta_content raw, default_meta_description raw,
   fun k hkc hkd => default_meta_other raw k hkc hkd⟩

/-- Witness for C2, the spec's example:
`\x7b"content": "A", "title": "T"\x7d` maps to metadata without
`"content"` and with `"title"` preserved. -/
theorem claim_C2_witness :
    alookup (_default_parsing_function_meta
        [("content", FieldValue.single (some "A")), ("title", FieldValue.single (some "T"))])
      "content" = none ∧
    alookup (_default_parsing_function_meta
        [("content", FieldValue.single (some "A")), ("title", FieldValue.single (some "T"))])
      "title" = some (FieldValue.single (some "T")) :=
  ⟨(claim_C2_selectMetadata_default _).1,
   by
    rw [(claim_C2_selectMetadata_default _).2.2 "title" (by decide) (by decide)]
    rfl⟩

/-- Claim C3: extraction yields exactly one raw item mapping per node
matched by the items selector (`./channel/item`), in document order, and
the empty match list yields the empty sequence; `parse_rss` is total, so
no error is raised. -/
theorem claim_C3_one_raw_item_per_node (g : Option String → String) (root : XmlNode) :
    (parse_rss g root).length = (findall root items_selector namespaces).length ∧
    (∀ i : Nat, (parse_rss g root)[i]?
      = ((findall root items_selector namespaces)[i]?).map (parse_item g)) ∧
    (findall root items_selector namespaces = [] → parse_rss g root = []) := by
  refine ⟨?_, ?_, ?_⟩
  · simp [parse_rss]
  · intro i
    simp [parse_rss]
  · intro h
    simp [parse_rss, h]

/-- Witness for C3: a feed with a channel and zero items yields the empty
sequence. -/
theorem claim_C3_witness : parse_rss sampleGetText emptyRoot = [] :=
  (claim_C3_one_raw_item_per_node sampleGetText emptyRoot).2.2 rfl

/-- Claim C4: for a non-multi-valued field spec of the schema whose path
matches two or more children of an item, the stored value is the
extracted text of the last matching node in document order (earlier
matches are overwritten). -/
theorem claim_C4_last_write_wins (g : Option String → String) (item : XmlNode)
    (s : FieldSpec) (hs : s ∈ fields) (hm : ¬ s.multi = some true)
    (e : XmlNode) (es : List XmlNode)
    (hfind : findall item s.tag namespaces = e :: es) (_htwo : es ≠ []) :
    alookup (parse_item g item) s.field
      = some (FieldValue.single (elemText g s (es.getLastD e))) :=
  parse_item_alookup_single g item s hs hm e es hfind

/-- Witness for C4: an item with `<title>T1</title>` then
`<title>T2</title>` stores `"T2"`. -/
theorem claim_C4_witness :
    alookup (parse_item sampleGetText sampleItem) "title"
      = some (FieldValue.single (some "T2")) :=
  claim_C4_last_write_wins sampleGetText sampleItem titleSpec (by decide) (by decide)
    (XmlNode.mk "title" (some "T1") []) [XmlNode.mk "title" (some "T2") []] rfl
    (List.cons_ne_nil _ _)

/-- Claim C5 is right about the intended extraction policy but the code
is wrong: `rss.py` uses the name `BeautifulSoup` on line 91 without ever
importing it, so at the claim's own example input — an item whose
`<description>` text is `"<p>Hello <b>World</b></p>"` — the rich-text
branch raises `NameError` instead of storing the stripped text, and that
exception propagates out of `parse_rss` and aborts `load`. The first
conjunct evaluates the runtime semantics at that failing input; the
second shows that under the intended semantics, with the stripping step
supplied as the external collaborator, exactly the claimed
`"Hello World"` is stored. -/
theorem claim_C5_code_bug :
    parse_item_run sampleItem = Except.error (PyError.nameError "BeautifulSoup") ∧
    alookup (parse_item sampleGetText sampleItem) "description"
      = some (FieldValue.single (some "Hello World")) :=
  ⟨rfl, by decide⟩

/-- Claim C6: if every location before `p` fetches and parses
successfully and fetching `p` fails, then `load` over
`l₁ ++ p :: l₂` propagates the fetch error: the result is that error for
every tail `l₂` (no later location influences it) and no document list is
delivered. -/
theorem claim_C6_fetch_error_aborts {ε : Type} (fetch : String → Except ε String)
    (fromstring : String → Except ε XmlNode) (g : Option String → String)
    (l₁ : List String) (p : String) (l₂ : List String) (e : ε)
    (hp : fetch p = Except.error e)
    (hgood : ∀ q ∈ l₁, ∃ b, fetch q = Except.ok b ∧ ∃ r, fromstring b = Except.ok r) :
    load fetch fromstring g (l₁ ++ p :: l₂) = Except.error e :=
  loadAux_error_of_prefix_ok fetch fromstring g p e hp l₂ l₁ hgood []

/-- Witness for C6: three feed locations where the second one fails to
fetch; `load` returns the fetch error. -/
theorem claim_C6_witness :
    load wfetch wfromstring sampleGetText
      ["http://a.example/feed", "http://b.example/feed", "http://c.example/feed"]
      = Except.error "fetch failed" :=
  claim_C6_fetch_error_aborts wfetch wfromstring sampleGetText
    ["http://a.example/feed"] "http://b.example/feed" ["http://c.example/feed"]
    "fetch failed" rfl
    (by
      intro q hq
      simp only [List.mem_singleton] at hq
      subst hq
      exact ⟨"<rss/>", rfl, emptyRoot, rfl⟩)

/-- Claim C7: for a multi-valued field spec of the schema (category) whose
path matches `k ≥ 1` children of an item, the stored value is the ordered
sequence of the k extracted texts in document order, duplicates
retained. -/
theorem claim_C7_multivalued_order (g : Option String → String) (item : XmlNode)
    (s : FieldSpec) (hs : s ∈ fields) (hm : s.multi = some true)
    (e : XmlNode) (es : List XmlNode)
    (hfind : findall item s.tag namespaces = e :: es) :
    alookup (parse_item g item) s.field
      = some (FieldValue.multi ((e :: es).map (elemText g s))) ∧
    ((e :: es).map (elemText g s)).length = (e :: es).length :=
  ⟨parse_item_alookup_multi g item s hs hm e es hfind, List.length_map _ _⟩

/-- Witness for C7: an item with two `<category>a</category>` children
stores the two-element sequence with the duplicate retained. -/
theorem claim_C7_witness :
    alookup (parse_item sampleGetText sampleItem) "category"
      = some (FieldValue.multi [some "a", some "a"]) :=
  (claim_C7_multivalued_order sampleGetText sampleItem categorySpec (by decide) rfl
    (XmlNode.mk "category" (some "a") []) [XmlNode.mk "category" (some "a") []] rfl).1

/-- Claim C8: a field spec of the schema whose path matches zero children
of an item contributes no key to the raw item mapping (the key is absent,
not the empty string or empty sequence), and extraction is total, so no
error is raised. -/
theorem claim_C8_no_match_key_absent (g : Option String → String) (item : XmlNode)
    (s : FieldSpec) (hs : s ∈ fields)
    (hfind : findall item s.tag namespaces = []) :
    alookup (parse_item g item) s.field = none :=
  parse_item_alookup_of_no_match g item s hs hfind

/-- Witness for C8: `sampleItem` has no `<link>` child, so its raw item
mapping has no `"source"` key. -/
theorem claim_C8_witness :
    alookup (parse_item sampleGetText sampleItem) "source" = none :=
  claim_C8_no_match_key_absent sampleGetText sampleItem linkSpec (by decide) rfl

/-- Claim C9: when the key `"content"` is present and maps to the empty
string, the default `selectText` returns the empty string and does not
fall back to `"description"`: key presence, not value non-emptiness,
decides. -/
theorem claim_C9_presence_decides (raw : RawItemFields)
    (h : alookup raw "content" = some (FieldValue.single (some ""))) :
    _default_parsing_function_text raw = FieldValue.single (some "") :=
  default_text_of_content raw _ h

/-- Witness for C9: with `"content"` empty and `"description"` set to
`"B"`, the result is the empty string, which differs from the
description's value. -/
theorem claim_C9_witness :
    _default_parsing_function_text
        [("content", FieldValue.single (some "")), ("description", FieldValue.single (some "B"))]
      = FieldValue.single (some "") ∧
    FieldValue.single (some "") ≠ FieldValue.single (some "B") :=
  ⟨claim_C9_presence_decides _ rfl, by decide⟩

/-- Counterexample to C10 as stated: the category spec is a non-rich-text
field spec of the schema, yet for an item whose single matching
`<category>` node has no text, the stored value is the one-element
sequence containing the null text value, not the null value itself. -/
theorem claim_C10_counterexample :
    categorySpec ∈ fields ∧
    ¬ categorySpec.type = some "html" ∧
    findall nullItem categorySpec.tag namespaces = [XmlNode.mk "category" none []] ∧
    alookup (parse_item (fun _ => "") nullItem) "category"
      = some (FieldValue.multi [none]) ∧
    ¬ alookup (parse_item (fun _ => "") nullItem) "category"
      = some (FieldValue.single none) :=
  ⟨by decide, by decide, rfl, by decide, by decide⟩

/-- Claim C10 as amended: for a non-rich-text, non-multi-valued field
spec of the schema whose last matched node has no text content, the
stored value is the node's null text value (`none`), not the empty
string, and it passes unchanged into the record's metadata (for a
multi-valued spec, the null value instead appears inside the stored
sequence, see the counterexample). -/
theorem claim_C10_null_text_preserved (g : Option String → String) (item : XmlNode)
    (s : FieldSpec) (hs : s ∈ fields) (hm : ¬ s.multi = some true)
    (ht : ¬ s.type = some "html") (e : XmlNode) (es : List XmlNode)
    (hfind : findall item s.tag namespaces = e :: es)
    (htext : (es.getLastD e).text = none) :
    alookup (parse_item g item) s.field = some (FieldValue.single none) ∧
    alookup (_default_parsing_function_meta (parse_item g item)) s.field
      = some (FieldValue.single none) := by
  have h1 : alookup (parse_item g item) s.field = some (FieldValue.single none) := by
    rw [parse_item_alookup_single g item s hs hm e es hfind]
    simp only [elemText]
    rw [if_neg ht, htext]
  have hk : s.field ≠ "content" ∧ s.field ≠ "description" := by
    have hs' := hs
    simp only [fields, List.mem_cons, List.not_mem_nil, or_false] at hs'
    rcases hs' with rfl | rfl | rfl | rfl | rfl | rfl | rfl <;> revert hm ht <;> decide
  exact ⟨h1, by rw [default_meta_other _ _ hk.1 hk.2, h1]⟩

/-- Witness for the amended C10: an item with an empty `<title/>` stores
the null text value under `"title"`, and the default metadata splitter
passes it through. -/
theorem claim_C10_witness :
    alookup (parse_item (fun _ => "") nullItem) "title" = some (FieldValue.single none) ∧
    alookup (_default_parsing_function_meta (parse_item (fun _ => "") nullItem)) "title"
      = some (FieldValue.single none) :=
  claim_C10_null_text_preserved (fun _ => "") nullItem titleSpec (by decide) (by decide)
    (by decide) (XmlNode.mk "title" none []) [] rfl rfl

end Rss
